import Mathlib

/-!
# client-zmq-iota-go: latency sampler

A shallow embedding of `src/main.go` (the deduplicating pipeline: `saveToMap`, `saveFile`,
`main`) and of the report naming of `src/cliente.go`, followed by the properties
established about them.

Conventions of the embedding

* Go `int` / `int64` values are `Int`; the increments whose result could leave the 64-bit range
  (`elementCount++`, `i++`) are wrapped explicitly with `wrapInt64`.
* Go strings are `String`; cutting at the first space is the same on bytes and on characters.
* The standard library is not part of the repository.  `encoding/json`, the order in which
  `sync.Map.Range` visits the entries, the float64 -> int64 conversion of an out-of-range
  value and the decimal rendering of a float64 are fields of `Runtime`; `strings.SplitN`,
  `time.Unix`, `Time.Sub`, `sync.Map.LoadOrStore`, `strconv.Itoa` and the float64 nearest to
  an integer literal are transcribed from their documented behaviour.
* A goroutine is a function over the sequence of values its channel delivers; `consumed` counts
  the values received.
* File operations are taken to succeed (their failure ends the process with `log.Fatal`).
-/

namespace ZmqClient

/-! ## Machine integers -/

/-- Smallest `int64`. -/
def minInt64 : Int := -9223372036854775808

/-- Largest `int64`. -/
def maxInt64 : Int := 9223372036854775807

/-- Two's-complement wrap-around of an integer into the `int64` range. -/
def wrapInt64 (x : Int) : Int := (x + 9223372036854775808) % 18446744073709551616 - 9223372036854775808

/-! ## Package `time` -/

/-- A `time.Time` without monotonic reading: seconds since the Unix epoch and the nanosecond
within that second. -/
structure Time where
  sec : Int
  nsec : Int
deriving DecidableEq, Repr

/-- The constant `time.Second`, a `Duration` in nanoseconds. -/
def Second : Int := 1000000000

/-- The instant a `Time` denotes, in nanoseconds since the Unix epoch. -/
def Time.instant (t : Time) : Int := t.sec * 1000000000 + t.nsec

/-- The function `time.Unix(sec, nsec)`, with the normalisation of `nsec` into `[0, 1e9)` of the
standard library. -/
def Time.Unix (sec nsec : Int) : Time :=
  if nsec < 0 ∨ nsec ≥ 1000000000 then
    let n := Int.tdiv nsec 1000000000
    let sec1 := sec + n
    let nsec1 := nsec - n * 1000000000
    if nsec1 < 0 then ⟨sec1 - 1, nsec1 + 1000000000⟩ else ⟨sec1, nsec1⟩
  else ⟨sec, nsec⟩

/-- The method `t.Sub(u)`: the `Duration` (int64 nanoseconds) `t - u`, replaced by the largest or
smallest `Duration` when the difference does not fit. -/
def Time.Sub (t u : Time) : Int :=
  let d := t.instant - u.instant
  if d < minInt64 then minInt64 else if d > maxInt64 then maxInt64 else d

/-! ## Data model (`src/main.go`, lines 19-42) -/

/-- The constant `DIRECTORY_NAME`. -/
def DIRECTORY_NAME : String := "files"

/-- The anonymous struct of the field `Message.Payload`. -/
structure Payload where
  Data : String
  Index : String
deriving DecidableEq, Repr

/-- The struct `Message`, the decoded JSON payload of a frame. -/
structure Message where
  ID : String
  NetworkID : Int
  Nonce : Int
  ParentMessages : List String
  Payload : Payload
deriving DecidableEq, Repr

/-- The struct `MessageInfo`, the value stored in the map for one message id. -/
structure MessageInfo where
  StartTime : Time
  ReceiveTime : Time
deriving DecidableEq, Repr

/-- The struct `MessageWithTimestamp`, the value carried by `messageChan`. -/
structure MessageWithTimestamp where
  Message : String
  ExactReceiveTime : Time
deriving DecidableEq, Repr

/-- A value decoded by `encoding/json` into an `interface{}`; a JSON number is decoded to a
float64, represented by the rational it denotes exactly. -/
inductive JsonValue where
  | null : JsonValue
  | bool (b : Bool) : JsonValue
  | number (f : Rat) : JsonValue
  | string (s : String) : JsonValue
  | array (elems : List JsonValue) : JsonValue
  | object (fields : List (String × JsonValue)) : JsonValue

/-- The `sync.Map` of the program: keys are message ids, kept in insertion order. -/
abbrev SyncMap := List (String × MessageInfo)

/-- The parts of the Go runtime and standard library that the program calls and that are not
repository code. -/
structure Runtime where
  /-- The call `json.Unmarshal([]byte(s), &payloadData)` for a `Message`; `none` is an error. -/
  unmarshalMessage : String → Option Message
  /-- The call `json.Unmarshal([]byte(s), &data)` for a `map[string]interface{}`. -/
  unmarshalData : String → Option (List (String × JsonValue))
  /-- The result of converting to `int64` a float64 whose integer part is outside the int64 range
  (implementation-dependent in Go). -/
  int64OutOfRange : Rat → Int
  /-- The order in which `sync.Map.Range` visits the entries. -/
  rangeOrder : SyncMap → SyncMap
  /-- The string `strconv.FormatFloat(elapsed.Seconds(), 'f', -1, 64)` of a `Duration`. -/
  formatSeconds : Int → String

/-- The conversion `int64(f)` of a float64: truncation toward zero. -/
def Runtime.int64OfFloat64 (rt : Runtime) (f : Rat) : Int :=
  let t := Int.tdiv f.num f.den
  if minInt64 ≤ t ∧ t ≤ maxInt64 then t else wrapInt64 (rt.int64OutOfRange f)

/-- The number of low bits a natural number has beyond a 53-bit significand: the least `e` with
`m / 2 ^ e < 2 ^ 53` (the first argument bounds the search and is given as `m`). -/
def excessBits : Nat → Nat → Nat
  | 0, _ => 0
  | fuel + 1, m => if m < 9007199254740992 then 0 else excessBits fuel (m / 2) + 1

/-- The float64 nearest to a natural number (round to nearest, ties to even, 53-bit significand):
what `encoding/json` stores for an integer literal. -/
def roundNat53 (m : Nat) : Nat :=
  let e := excessBits m m
  let q := m / 2 ^ e
  let r := m % 2 ^ e
  if 2 * r < 2 ^ e then q * 2 ^ e
  else if 2 * r = 2 ^ e ∧ q % 2 = 0 then q * 2 ^ e
  else (q + 1) * 2 ^ e

/-- The float64 nearest to an integer, as an integer. -/
def float64OfInt (n : Int) : Int :=
  if n < 0 then -(roundNat53 n.natAbs : Int) else (roundNat53 n.natAbs : Int)

/-! ## Package `strings` -/

/-- Cuts a character sequence at its first space. -/
def cutAtSpace : List Char → Option (List Char × List Char)
  | [] => none
  | c :: cs =>
    if c = ' ' then some ([], cs)
    else match cutAtSpace cs with
      | none => none
      | some (a, b) => some (c :: a, b)

/-- The call `strings.SplitN(s, " ", 2)`. -/
def SplitN2 (s : String) : List String :=
  match cutAtSpace s.toList with
  | none => [s]
  | some (a, b) => [String.mk a, String.mk b]

/-! ## Aggregation: `saveToMap` (`src/main.go`, lines 70-127) -/

/-- The method `LoadOrStore`: the map afterwards and the flag `loaded`. -/
def LoadOrStore (m : SyncMap) (key : String) (value : MessageInfo) : SyncMap × Bool :=
  match m.lookup key with
  | some _ => (m, true)
  | none => (m ++ [(key, value)], false)

/-- What lines 83-104 make of one frame. -/
inductive Decoded where
  /-- The split gave other than two parts: the `else` branch of line 123. -/
  | unexpectedFormat : Decoded
  /-- The outer `json.Unmarshal` failed (lines 89-92). -/
  | badPayload : Decoded
  /-- The inner `json.Unmarshal` failed (lines 96-99). -/
  | badData : Decoded
  /-- The type assertion `data["publishedAt"].(float64)` of line 102 panics. -/
  | assertionPanic : Decoded
  /-- Lines 102-104 succeeded: the key and the value handed to `LoadOrStore`. -/
  | ok (id : String) (info : MessageInfo) : Decoded
deriving DecidableEq

/-- Lines 83-104 of `saveToMap`: split, decode twice, read `publishedAt`, build `startTime`. -/
def decodeFrame (rt : Runtime) (msg : MessageWithTimestamp) : Decoded :=
  match SplitN2 msg.Message with
  | [_, jsonPayload] =>
    match rt.unmarshalMessage jsonPayload with
    | none => .badPayload
    | some payloadData =>
      match rt.unmarshalData payloadData.Payload.Data with
      | none => .badData
      | some data =>
        match data.lookup "publishedAt" with
        | some (.number startTimeUnix) =>
          let t := rt.int64OfFloat64 startTimeUnix
          let startTime := Time.Unix (Int.tdiv t Second) (Int.tmod t Second)
          .ok payloadData.ID ⟨startTime, msg.ExactReceiveTime⟩
        | _ => .assertionPanic
  | _ => .unexpectedFormat

/-- The message id of a frame that decoded, `none` for a frame that did not. -/
def Decoded.messageId : Decoded → Option String
  | .ok id _ => some id
  | _ => none

/-- The message ids of the frames that decode, in order of arrival (with repetitions). -/
def decodedIds (rt : Runtime) (frames : List MessageWithTimestamp) : List String :=
  frames.filterMap fun msg => (decodeFrame rt msg).messageId

/-- The number of distinct message ids among the frames that decode. -/
def distinctIds (rt : Runtime) (frames : List MessageWithTimestamp) : Nat :=
  (decodedIds rt frames).toFinset.card

/-- The set of keys of the map. -/
def mapKeys (m : SyncMap) : Finset String := (m.map Prod.fst).toFinset

/-- The three ways in which a frame is malformed: no separating space; a second part that
`json.Unmarshal` rejects as a `Message`, or a `payload.data` that it rejects; nested data
without a `publishedAt` field. -/
def Malformed (rt : Runtime) (msg : MessageWithTimestamp) : Prop :=
  ' ' ∉ msg.Message.toList ∨
  ∃ topic jsonPayload, SplitN2 msg.Message = [topic, jsonPayload] ∧
    (rt.unmarshalMessage jsonPayload = none ∨
     ∃ payloadData, rt.unmarshalMessage jsonPayload = some payloadData ∧
      (rt.unmarshalData payloadData.Payload.Data = none ∨
       ∃ data, rt.unmarshalData payloadData.Payload.Data = some data ∧
         data.lookup "publishedAt" = none))

/-- Where the goroutine `saveToMap` stands. -/
inductive Status where
  /-- In the loop, about to receive from `messageChan`. -/
  | running : Status
  /-- Returned at line 120 after `close(done)`: the target was reached. -/
  | targetReached : Status
  /-- Returned at line 79 after `close(done)`: `messageChan` was closed. -/
  | channelClosed : Status
  /-- Stopped by the run-time panic of line 102; `done` was not closed. -/
  | panicked : Status
deriving DecidableEq, Repr

/-- The state of the goroutine `saveToMap`: the shared map, the local `elementCount`, the number
of frames received from `messageChan` so far, and the control state. -/
structure AggState where
  messageMap : SyncMap
  elementCount : Int
  consumed : Nat
  status : Status
deriving DecidableEq, Repr

/-- The state at the entry of `saveToMap` in `main`: empty map, `elementCount := 0`. -/
def AggState.init : AggState := ⟨[], 0, 0, .running⟩

/-- Whether `done` has been closed. -/
def AggState.doneClosed (s : AggState) : Bool :=
  match s.status with
  | .targetReached => true
  | .channelClosed => true
  | _ => false

/-- The bound on the local counter of `saveToMap`: it is an `int64`, never above the target,
and strictly below it while the loop is still receiving. -/
def CountBounded (size : Int) (s : AggState) : Prop :=
  minInt64 ≤ s.elementCount ∧ s.elementCount ≤ size ∧
    (s.status = .running → s.elementCount < size)

/-- One iteration of the loop of `saveToMap` that received `msg` (lines 82-125). -/
def loopFrame (rt : Runtime) (size : Int) (s : AggState) (msg : MessageWithTimestamp) : AggState :=
  match decodeFrame rt msg with
  | .ok id info =>
    let r := LoadOrStore s.messageMap id info
    let elementCount := if r.2 then s.elementCount else wrapInt64 (s.elementCount + 1)
    if elementCount ≥ size then ⟨r.1, elementCount, s.consumed + 1, .targetReached⟩
    else ⟨r.1, elementCount, s.consumed + 1, .running⟩
  | .assertionPanic => ⟨s.messageMap, s.elementCount, s.consumed + 1, .panicked⟩
  | _ => ⟨s.messageMap, s.elementCount, s.consumed + 1, .running⟩

/-- The loop of `saveToMap` run on the frames that `messageChan` delivers, from state `s`; a
goroutine that has returned or panicked receives nothing more. -/
def feed (rt : Runtime) (size : Int) : AggState → List MessageWithTimestamp → AggState
  | s, [] => s
  | s, msg :: rest =>
    match s.status with
    | .running => feed rt size (loopFrame rt size s msg) rest
    | _ => s

/-- The function `saveToMap` on a channel that delivers `frames` and is then closed. -/
def saveToMap (rt : Runtime) (size : Int) (frames : List MessageWithTimestamp) : AggState :=
  let s := feed rt size AggState.init frames
  match s.status with
  | .running => ⟨s.messageMap, s.elementCount, s.consumed, .channelClosed⟩
  | _ => s

/-! ## Report writer: `saveFile` (`src/main.go`, lines 129-180) -/

/-- The call `strconv.Itoa(i)`, also the verb `%d`. -/
def Itoa : Int → String
  | Int.ofNat m => String.mk (Nat.toDigits 10 m)
  | Int.negSucc m => "-" ++ String.mk (Nat.toDigits 10 (m + 1))

/-- The file name of line 142 for a directory listing of `n` entries. -/
def fileName (n : Nat) : String := "tangle-hornet-reading-time_" ++ Itoa n ++ ".csv"

/-- The path of line 143. -/
def filePath (n : Nat) : String := DIRECTORY_NAME ++ "/" ++ fileName n

/-- The header row of line 156. -/
def header : List String := ["Índice", "Tempo de consulta (s)"]

/-- The callback of `messageMap.Range` (lines 162-177) applied to the entries in the order they
are visited, from the value `i` of the package-level counter: the rows written and the counter
afterwards. -/
def writeRows (rt : Runtime) : Int → List (String × MessageInfo) → List (List String) × Int
  | i, [] => ([], i)
  | i, (_, messageInfo) :: rest =>
    let elapsed := messageInfo.ReceiveTime.Sub messageInfo.StartTime
    let elapsedInString := rt.formatSeconds elapsed
    let i1 := wrapInt64 (i + 1)
    let row := [Itoa i1, elapsedInString]
    let r := writeRows rt i1 rest
    (row :: r.1, r.2)

/-- What one call of `saveFile` leaves behind. -/
structure Report where
  /-- The path given to `os.Create`. -/
  path : String
  /-- The rows given to the csv writer, in order. -/
  rows : List (List String)
  /-- The package-level counter `i` after the call. -/
  counter : Int
deriving DecidableEq, Repr

/-- The function `saveFile`, all file operations succeeding.  `i` is the package-level counter at
entry; `dir` is the listing of the directory `files`, `none` when it does not exist yet (it is
then created, and read back empty). -/
def saveFile (rt : Runtime) (i : Int) (dir : Option (List String)) (messageMap : SyncMap) : Report :=
  let files := match dir with
    | none => []
    | some names => names
  let r := writeRows rt i (rt.rangeOrder messageMap)
  ⟨filePath files.length, header :: r.1, r.2⟩

/-! ## Coordinator: `main` (`src/main.go`, lines 183-237) -/

/-- The synchronisation steps and calls of the goroutine `main`, in the order it performs them. -/
inductive CoordEvent where
  /-- Line 223, `go saveToMap(...)`. -/
  | goSaveToMap : CoordEvent
  /-- Line 226, `wg.Add(1)`. -/
  | wgAdd : CoordEvent
  /-- Line 227, `go receiveMessages(...)`. -/
  | goReceiveMessages : CoordEvent
  /-- Line 230, `<-done` returned. -/
  | recvDone : CoordEvent
  /-- Line 232, `close(stopChan)`. -/
  | closeStopChan : CoordEvent
  /-- A call `wg.Wait()` that returned. -/
  | wgWait : CoordEvent
  /-- Line 234, `saveFile(&messageMap)`, with the content of the map at the call. -/
  | callSaveFile (messageMap : SyncMap) : CoordEvent
deriving DecidableEq, Repr

/-- The state of `saveToMap` inside `main`, on the frames that `receiveMessages` forwards:
`messageChan` is closed only by `receiveMessages` after `stopChan` is closed, which `main` does
only after `done`, so the loop never sees the channel closed. -/
def aggregation (rt : Runtime) (size : Int) (frames : List MessageWithTimestamp) : AggState :=
  feed rt size AggState.init frames

/-- The events of `main` (lines 223-236) when the transport delivers `frames`: it blocks at
`<-done` unless `saveToMap` closes `done`. -/
def mainTrace (rt : Runtime) (size : Int) (frames : List MessageWithTimestamp) : List CoordEvent :=
  let s := aggregation rt size frames
  [CoordEvent.goSaveToMap, CoordEvent.wgAdd, CoordEvent.goReceiveMessages] ++
    (if s.doneClosed then
      [CoordEvent.recvDone, CoordEvent.closeStopChan, CoordEvent.callSaveFile s.messageMap]
    else [])

/-- The report `main` writes when the transport delivers `frames`; `none` when `main` never
reaches line 234.  The package-level counter `i` is `0` (line 21). -/
def main (rt : Runtime) (size : Int) (dir : Option (List String))
    (frames : List MessageWithTimestamp) : Option Report :=
  let s := aggregation rt size frames
  if s.doneClosed then some (saveFile rt 0 dir s.messageMap) else none

/-! ## The variant `src/cliente.go` -/

/-- The events of `main` in `src/cliente.go` (lines 127-146). -/
def clienteMainTrace : List CoordEvent :=
  [CoordEvent.wgAdd, CoordEvent.goReceiveMessages, CoordEvent.wgWait]

/-- The path `main` of `src/cliente.go` creates (lines 103-111); `none` when the directory does
not exist (`log.Fatal`). -/
def clienteFilePath (dir : Option (List String)) : Option String :=
  match dir with
  | none => none
  | some files => some (filePath files.length)

/-! ## Concrete frames

A decoder that agrees with `encoding/json` on a handful of texts, for evaluating the program on
concrete frames. -/

/-- The text of the nested JSON object whose `publishedAt` is the literal `lit`. -/
def dataText (lit : String) : String := "\x7b\"publishedAt\":" ++ lit ++ "\x7d"

/-- The nested texts the sample decoder knows, each with its value as a Go map. -/
def sampleData : List (String × List (String × JsonValue)) :=
  [ (dataText "1000000000", [("publishedAt", .number 1000000000)]),
    (dataText "2000000000", [("publishedAt", .number 2000000000)]),
    (dataText "-1", [("publishedAt", .number (-1))]),
    (dataText "1700000000000000000", [("publishedAt", .number (float64OfInt 1700000000000000000))]),
    (dataText "1700000000000000001", [("publishedAt", .number (float64OfInt 1700000000000000001))]),
    (dataText "-9223372036854775808",
      [("publishedAt", .number (float64OfInt (-9223372036854775808)))]),
    (dataText "\"soon\"", [("publishedAt", .string "soon")]),
    ("\x7b\x7d", []) ]

/-- The escaping of a JSON string: a backslash before every double quote and backslash. -/
def escapeJson : List Char → List Char
  | [] => []
  | c :: cs =>
    if c = Char.ofNat 34 ∨ c = Char.ofNat 92 then Char.ofNat 92 :: c :: escapeJson cs
    else c :: escapeJson cs

/-- The outer JSON text of a message with the given id whose field `payload.data` is the string
`tag`. -/
def payloadText (id tag : String) : String :=
  "\x7b\"id\":\"" ++ id ++ "\",\"payload\":\x7b\"data\":\"" ++ String.mk (escapeJson tag.toList) ++
    "\"\x7d\x7d"

/-- The ids used in the concrete frames. -/
def sampleIds : List String := ["a", "b", "c", "d"]

/-- The outer texts the sample decoder knows, each with its `Message`. -/
def sampleMessages : List (String × Message) :=
  sampleIds.flatMap fun id =>
    (sampleData.map (·.1) ++ ["oops"]).map fun tag =>
      (payloadText id tag, ⟨id, 0, 0, [], ⟨tag, ""⟩⟩)

/-- A runtime for concrete runs: table decoders, `Range` in insertion order, durations rendered
in nanoseconds. -/
def sampleRuntime : Runtime where
  unmarshalMessage := fun s => sampleMessages.lookup s
  unmarshalData := fun s => sampleData.lookup s
  int64OutOfRange := fun _ => minInt64
  rangeOrder := fun m => m
  formatSeconds := fun d => Itoa d ++ "ns"

/-- A frame on topic `LB_STATUS` for the message `id` with nested data `tag`, received at
second `sec`, nanosecond `nsec`. -/
def sampleFrame (id tag : String) (sec nsec : Int) : MessageWithTimestamp :=
  ⟨"LB_STATUS " ++ payloadText id tag, ⟨sec, nsec⟩⟩

/-- The number a sequence of decimal digit characters denotes. -/
def digitsValue (cs : List Char) : Nat :=
  cs.foldl (fun acc c => acc * 10 + (c.toNat - 48)) 0

/-- The map of the concrete reports: two samples, 1.5 s and 2.5 s. -/
def sampleMap : SyncMap :=
  [("a", ⟨⟨1, 0⟩, ⟨2, 500000000⟩⟩), ("b", ⟨⟨1, 0⟩, ⟨3, 500000000⟩⟩)]

/-- Scenario B of the specification: five frames, the first and the fourth with the same id. -/
def scenarioB : List MessageWithTimestamp :=
  [sampleFrame "a" (dataText "1000000000") 2 500000000,
   sampleFrame "b" (dataText "1000000000") 2 600000000,
   sampleFrame "c" (dataText "1000000000") 2 700000000,
   sampleFrame "a" (dataText "2000000000") 3 500000000,
   sampleFrame "d" (dataText "2000000000") 3 600000000]

/-! # Properties -/

/-! ## Machine integers -/

theorem wrapInt64_of_range {x : Int} (h1 : minInt64 ≤ x) (h2 : x ≤ maxInt64) :
    wrapInt64 x = x := by
  unfold wrapInt64
  unfold minInt64 at h1
  unfold maxInt64 at h2
  omega

theorem wrapInt64_le {x : Int} (h1 : minInt64 ≤ x) : wrapInt64 x ≤ x := by
  unfold wrapInt64
  unfold minInt64 at h1
  omega

theorem minInt64_le_wrapInt64 (x : Int) : minInt64 ≤ wrapInt64 x := by
  unfold wrapInt64 minInt64
  omega

/-! ## The loop of `saveToMap` -/

theorem feed_nil (rt : Runtime) (size : Int) (s : AggState) : feed rt size s [] = s := rfl

theorem feed_cons_running (rt : Runtime) (size : Int) (s : AggState) (msg : MessageWithTimestamp)
    (rest : List MessageWithTimestamp) (h : s.status = .running) :
    feed rt size s (msg :: rest) = feed rt size (loopFrame rt size s msg) rest := by
  simp [feed, h]

theorem feed_of_not_running (rt : Runtime) (size : Int) (s : AggState)
    (frames : List MessageWithTimestamp) (h : s.status ≠ .running) : feed rt size s frames = s := by
  cases frames with
  | nil => rfl
  | cons msg rest =>
    cases hs : s.status with
    | running => exact absurd hs h
    | targetReached => simp [feed, hs]
    | channelClosed => simp [feed, hs]
    | panicked => simp [feed, hs]

theorem feed_append (rt : Runtime) (size : Int) (s : AggState)
    (xs ys : List MessageWithTimestamp) :
    feed rt size s (xs ++ ys) = feed rt size (feed rt size s xs) ys := by
  induction xs generalizing s with
  | nil => rfl
  | cons x xs ih =>
    by_cases h : s.status = .running
    · rw [List.cons_append, feed_cons_running _ _ _ _ _ h, feed_cons_running _ _ _ _ _ h, ih]
    · rw [feed_of_not_running _ _ _ _ h, feed_of_not_running _ _ _ _ h,
        feed_of_not_running _ _ _ _ h]

theorem running_of_feed_running (rt : Runtime) (size : Int) (s : AggState)
    (frames : List MessageWithTimestamp) (h : (feed rt size s frames).status = .running) :
    s.status = .running := by
  by_contra hs
  rw [feed_of_not_running _ _ _ _ hs] at h
  exact hs h

theorem doneClosed_not_running {s : AggState} (h : s.doneClosed = true) :
    s.status ≠ .running := by
  intro hs
  simp [AggState.doneClosed, hs] at h

/-- The state after a frame that did not decode: only the count of received frames moves. -/
theorem loopFrame_of_not_ok (rt : Runtime) (size : Int) (s : AggState)
    (msg : MessageWithTimestamp) (h : ∀ id info, decodeFrame rt msg ≠ .ok id info) :
    (loopFrame rt size s msg).messageMap = s.messageMap ∧
      (loopFrame rt size s msg).elementCount = s.elementCount ∧
      (loopFrame rt size s msg).consumed = s.consumed + 1 ∧
      (loopFrame rt size s msg).status =
        (if decodeFrame rt msg = .assertionPanic then Status.panicked else Status.running) := by
  cases hd : decodeFrame rt msg with
  | ok id info => exact absurd hd (h id info)
  | unexpectedFormat => simp [loopFrame, hd]
  | badPayload => simp [loopFrame, hd]
  | badData => simp [loopFrame, hd]
  | assertionPanic => simp [loopFrame, hd]

theorem cutAtSpace_eq_none {l : List Char} (h : ' ' ∉ l) : cutAtSpace l = none := by
  induction l with
  | nil => rfl
  | cons c cs ih =>
    have hc : c ≠ ' ' := fun e => h (by simp [e])
    have hcs : ' ' ∉ cs := fun e => h (by simp [e])
    simp [cutAtSpace, hc, ih hcs]

theorem decodeFrame_of_malformed (rt : Runtime) (msg : MessageWithTimestamp)
    (h : Malformed rt msg) : ∀ id info, decodeFrame rt msg ≠ .ok id info := by
  intro id info
  rcases h with h | ⟨topic, jsonPayload, hs, h⟩
  · have hs : SplitN2 msg.Message = [msg.Message] := by
      unfold SplitN2
      rw [cutAtSpace_eq_none h]
    simp [decodeFrame, hs]
  · rcases h with h | ⟨payloadData, hm, h⟩
    · simp [decodeFrame, hs, h]
    · rcases h with h | ⟨data, hdata, h⟩
      · simp [decodeFrame, hs, hm, h]
      · simp [decodeFrame, hs, hm, hdata, h]

/-- C4. A frame that is malformed in any of the three ways (no separating space; outer or
nested JSON rejected; nested data without `publishedAt`) leaves the sample map and the sample
count exactly as they were when `saveToMap` processes it, so the report written from the map has
the same rows as without the frame. -/
theorem malformed_frame_adds_nothing (rt : Runtime) (size : Int) (s : AggState)
    (msg : MessageWithTimestamp) (h : Malformed rt msg) :
    (loopFrame rt size s msg).messageMap = s.messageMap ∧
      (loopFrame rt size s msg).elementCount = s.elementCount ∧
      ∀ (i : Int) (dir : Option (List String)),
        (saveFile rt i dir (loopFrame rt size s msg).messageMap).rows =
          (saveFile rt i dir s.messageMap).rows := by
  have hn := loopFrame_of_not_ok rt size s msg (decodeFrame_of_malformed rt msg h)
  refine ⟨hn.1, hn.2.1, ?_⟩
  intro i dir
  rw [hn.1]

theorem malformed_frame_adds_nothing_witness :
    Malformed sampleRuntime ⟨"onlytopic-no-space", ⟨2, 5⟩⟩ ∧
      (loopFrame sampleRuntime 1 AggState.init ⟨"onlytopic-no-space", ⟨2, 5⟩⟩).messageMap = [] ∧
      (loopFrame sampleRuntime 1 AggState.init ⟨"onlytopic-no-space", ⟨2, 5⟩⟩).elementCount = 0 :=
  ⟨Or.inl (by decide),
    (malformed_frame_adds_nothing sampleRuntime 1 AggState.init ⟨"onlytopic-no-space", ⟨2, 5⟩⟩
      (Or.inl (by decide))).1,
    (malformed_frame_adds_nothing sampleRuntime 1 AggState.init ⟨"onlytopic-no-space", ⟨2, 5⟩⟩
      (Or.inl (by decide))).2.1⟩

/-! ## Frames that decode -/

theorem loopFrame_ok_loaded (rt : Runtime) (size : Int) (s : AggState)
    (msg : MessageWithTimestamp) {id : String} {info a : MessageInfo}
    (hd : decodeFrame rt msg = .ok id info) (hl : s.messageMap.lookup id = some a) :
    loopFrame rt size s msg =
      ⟨s.messageMap, s.elementCount, s.consumed + 1,
        if s.elementCount ≥ size then .targetReached else .running⟩ := by
  simp only [loopFrame, hd, LoadOrStore, hl, if_true]
  by_cases h : s.elementCount ≥ size
  · simp only [if_pos h]
  · simp only [if_neg h]

theorem loopFrame_ok_new (rt : Runtime) (size : Int) (s : AggState)
    (msg : MessageWithTimestamp) {id : String} {info : MessageInfo}
    (hd : decodeFrame rt msg = .ok id info) (hl : s.messageMap.lookup id = none) :
    loopFrame rt size s msg =
      ⟨s.messageMap ++ [(id, info)], wrapInt64 (s.elementCount + 1), s.consumed + 1,
        if wrapInt64 (s.elementCount + 1) ≥ size then .targetReached else .running⟩ := by
  simp only [loopFrame, hd, LoadOrStore, hl, Bool.false_eq_true, if_false]
  by_cases h : wrapInt64 (s.elementCount + 1) ≥ size
  · simp only [if_pos h]
  · simp only [if_neg h]

/-! ## The count never passes a positive target -/

theorem countBounded_loopFrame (rt : Runtime) (size : Int) (s : AggState)
    (msg : MessageWithTimestamp) (hs : s.status = .running) (h : CountBounded size s) :
    CountBounded size (loopFrame rt size s msg) := by
  obtain ⟨h1, h2, h3⟩ := h
  have h4 := h3 hs
  cases hd : decodeFrame rt msg with
  | ok id info =>
    cases hl : s.messageMap.lookup id with
    | some a =>
      rw [loopFrame_ok_loaded rt size s msg hd hl]
      have hlt : ¬ s.elementCount ≥ size := by omega
      simp only [if_neg hlt]
      exact ⟨h1, h2, fun _ => h4⟩
    | none =>
      rw [loopFrame_ok_new rt size s msg hd hl]
      have hw1 := minInt64_le_wrapInt64 (s.elementCount + 1)
      have hw2 : wrapInt64 (s.elementCount + 1) ≤ s.elementCount + 1 :=
        wrapInt64_le (by omega)
      by_cases hge : wrapInt64 (s.elementCount + 1) ≥ size
      · simp only [if_pos hge]
        refine ⟨hw1, ?_, fun hr => by simp at hr⟩
        show wrapInt64 (s.elementCount + 1) ≤ size
        omega
      · simp only [if_neg hge]
        refine ⟨hw1, ?_, fun _ => ?_⟩
        · show wrapInt64 (s.elementCount + 1) ≤ size
          omega
        · show wrapInt64 (s.elementCount + 1) < size
          omega
  | unexpectedFormat =>
    have hn := loopFrame_of_not_ok rt size s msg (by simp [hd])
    exact ⟨by rw [hn.2.1]; exact h1, by rw [hn.2.1]; exact h2, fun _ => by rw [hn.2.1]; exact h4⟩
  | badPayload =>
    have hn := loopFrame_of_not_ok rt size s msg (by simp [hd])
    exact ⟨by rw [hn.2.1]; exact h1, by rw [hn.2.1]; exact h2, fun _ => by rw [hn.2.1]; exact h4⟩
  | badData =>
    have hn := loopFrame_of_not_ok rt size s msg (by simp [hd])
    exact ⟨by rw [hn.2.1]; exact h1, by rw [hn.2.1]; exact h2, fun _ => by rw [hn.2.1]; exact h4⟩
  | assertionPanic =>
    have hn := loopFrame_of_not_ok rt size s msg (by simp [hd])
    exact ⟨by rw [hn.2.1]; exact h1, by rw [hn.2.1]; exact h2, fun _ => by rw [hn.2.1]; exact h4⟩

theorem countBounded_feed (rt : Runtime) (size : Int) (s : AggState)
    (frames : List MessageWithTimestamp) (h : CountBounded size s) :
    CountBounded size (feed rt size s frames) := by
  induction frames generalizing s with
  | nil => exact h
  | cons msg rest ih =>
    by_cases hs : s.status = .running
    · rw [feed_cons_running _ _ _ _ _ hs]
      exact ih _ (countBounded_loopFrame rt size s msg hs h)
    · rw [feed_of_not_running _ _ _ _ hs]
      exact h

theorem countBounded_init (size : Int) (h : 1 ≤ size) : CountBounded size AggState.init := by
  refine ⟨by decide, ?_, fun _ => ?_⟩
  · show (0 : Int) ≤ size
    omega
  · show (0 : Int) < size
    omega

theorem saveToMap_elementCount (rt : Runtime) (size : Int)
    (frames : List MessageWithTimestamp) :
    (saveToMap rt size frames).elementCount =
      (feed rt size AggState.init frames).elementCount := by
  unfold saveToMap
  cases h : (feed rt size AggState.init frames).status <;> simp [h]

/-- C2 (amended). For every configured target of at least 1 and every sequence of frames, the
sample count never exceeds the target: neither in the state `saveToMap` has reached after any
number of frames, nor when it stops because the channel was closed. -/
theorem count_le_positive_target (rt : Runtime) (size : Int)
    (frames : List MessageWithTimestamp) (h : 1 ≤ size) :
    (feed rt size AggState.init frames).elementCount ≤ size ∧
      (saveToMap rt size frames).elementCount ≤ size := by
  have hb := countBounded_feed rt size AggState.init frames (countBounded_init size h)
  exact ⟨hb.2.1, by rw [saveToMap_elementCount]; exact hb.2.1⟩

theorem count_le_positive_target_witness :
    (1 : Int) ≤ 1 ∧
      (saveToMap sampleRuntime 1
        [sampleFrame "a" (dataText "1000000000") 2 500000000,
         sampleFrame "b" (dataText "2000000000") 3 500000000]).elementCount ≤ 1 :=
  ⟨by decide,
    (count_le_positive_target sampleRuntime 1
      [sampleFrame "a" (dataText "1000000000") 2 500000000,
       sampleFrame "b" (dataText "2000000000") 3 500000000] (by decide)).2⟩

/-- C2 as stated fails: with the target `--size 0`, one well-formed frame is stored and counted
before the target is compared, and `saveToMap` stops with a count of 1. -/
theorem count_exceeds_zero_target :
    (saveToMap sampleRuntime 0 [sampleFrame "a" (dataText "1000000000") 2 500000000]).status =
        Status.targetReached ∧
      (saveToMap sampleRuntime 0
        [sampleFrame "a" (dataText "1000000000") 2 500000000]).elementCount = 1 ∧
      ¬ (saveToMap sampleRuntime 0
        [sampleFrame "a" (dataText "1000000000") 2 500000000]).elementCount ≤ 0 := by
  decide

/-! ## Completion is terminal -/

/-- C5. Once `saveToMap` has closed `done` it has returned: whatever frames would still arrive,
its state (map, count, frames received) stays what it was at that moment, and the map that `main`
hands to `saveFile` is the map of that moment. -/
theorem completion_is_terminal (rt : Runtime) (size : Int) (dir : Option (List String))
    (frames : List MessageWithTimestamp)
    (h : (aggregation rt size frames).doneClosed = true) :
    (∀ later, feed rt size (aggregation rt size frames) later = aggregation rt size frames) ∧
      (∀ later, aggregation rt size (frames ++ later) = aggregation rt size frames) ∧
      (∀ later, main rt size dir (frames ++ later) =
        some (saveFile rt 0 dir (aggregation rt size frames).messageMap)) ∧
      (∀ later, CoordEvent.callSaveFile (aggregation rt size frames).messageMap ∈
        mainTrace rt size (frames ++ later)) := by
  have hterm : ∀ later,
      feed rt size (aggregation rt size frames) later = aggregation rt size frames :=
    fun later => feed_of_not_running rt size _ later (doneClosed_not_running h)
  have happ : ∀ later, aggregation rt size (frames ++ later) = aggregation rt size frames := by
    intro later
    show feed rt size AggState.init (frames ++ later) = _
    rw [feed_append]
    exact hterm later
  refine ⟨hterm, happ, ?_, ?_⟩
  · intro later
    simp only [main, happ later, h, if_true]
  · intro later
    simp only [mainTrace, happ later, h, if_true]
    simp

theorem completion_is_terminal_witness :
    (aggregation sampleRuntime 1
        [sampleFrame "a" (dataText "1000000000") 2 500000000]).doneClosed = true ∧
      aggregation sampleRuntime 1
          ([sampleFrame "a" (dataText "1000000000") 2 500000000] ++
            [sampleFrame "b" (dataText "2000000000") 3 500000000]) =
        aggregation sampleRuntime 1 [sampleFrame "a" (dataText "1000000000") 2 500000000] :=
  ⟨by decide,
    (completion_is_terminal sampleRuntime 1 none
      [sampleFrame "a" (dataText "1000000000") 2 500000000] (by decide)).2.1
      [sampleFrame "b" (dataText "2000000000") 3 500000000]⟩

/-! ## The unchecked type assertion -/

/-- C9 fails on the code. A frame whose nested data is `{}` (or whose `publishedAt` is a string)
makes line 102 panic: `saveToMap` stops there, the well-formed frame that follows is never
received, `done` is never closed and `main` writes no report; without the offending frame the
same stream reaches the target. -/
theorem missing_publishedAt_panics :
    aggregation sampleRuntime 1
        [sampleFrame "a" "\x7b\x7d" 2 500000000,
         sampleFrame "b" (dataText "1000000000") 3 500000000] =
        ⟨[], 0, 1, Status.panicked⟩ ∧
      aggregation sampleRuntime 1
        [sampleFrame "a" (dataText "\"soon\"") 2 500000000,
         sampleFrame "b" (dataText "1000000000") 3 500000000] =
        ⟨[], 0, 1, Status.panicked⟩ ∧
      main sampleRuntime 1 none
        [sampleFrame "a" "\x7b\x7d" 2 500000000,
         sampleFrame "b" (dataText "1000000000") 3 500000000] = none ∧
      aggregation sampleRuntime 1 [sampleFrame "b" (dataText "1000000000") 3 500000000] =
        ⟨[("b", ⟨⟨1, 0⟩, ⟨3, 500000000⟩⟩)], 1, 1, Status.targetReached⟩ := by
  decide

/-! ## The coordinator never waits for the wait group -/

/-- C6 fails on the code. In no run does `main` call `wg.Wait()`: when `done` is closed the events
of `main` are `<-done`, `close(stopChan)`, `saveFile`, so the report is written without waiting
for `receiveMessages` to return, whereas `main` of `src/cliente.go` does wait. -/
theorem main_never_waits (rt : Runtime) (size : Int) (frames : List MessageWithTimestamp) :
    CoordEvent.wgWait ∉ mainTrace rt size frames ∧
      CoordEvent.wgWait ∈ clienteMainTrace ∧
      mainTrace sampleRuntime 1 [sampleFrame "a" (dataText "1000000000") 2 500000000] =
        [CoordEvent.goSaveToMap, CoordEvent.wgAdd, CoordEvent.goReceiveMessages,
          CoordEvent.recvDone, CoordEvent.closeStopChan,
          CoordEvent.callSaveFile [("a", ⟨⟨1, 0⟩, ⟨2, 500000000⟩⟩)]] := by
  refine ⟨?_, by decide, by decide⟩
  unfold mainTrace
  by_cases h : (aggregation rt size frames).doneClosed = true <;> simp [h]

/-! ## The first sample of an id is the one kept -/

theorem lookup_loopFrame_some (rt : Runtime) (size : Int) (s : AggState)
    (msg : MessageWithTimestamp) {id : String} {a : MessageInfo}
    (h : s.messageMap.lookup id = some a) :
    (loopFrame rt size s msg).messageMap.lookup id = some a := by
  cases hd : decodeFrame rt msg with
  | ok id1 info =>
    cases hl : s.messageMap.lookup id1 with
    | some b =>
      rw [loopFrame_ok_loaded rt size s msg hd hl]
      exact h
    | none =>
      rw [loopFrame_ok_new rt size s msg hd hl]
      show (s.messageMap ++ [(id1, info)]).lookup id = some a
      rw [List.lookup_append, h]
      rfl
  | unexpectedFormat => rw [(loopFrame_of_not_ok rt size s msg (by simp [hd])).1]; exact h
  | badPayload => rw [(loopFrame_of_not_ok rt size s msg (by simp [hd])).1]; exact h
  | badData => rw [(loopFrame_of_not_ok rt size s msg (by simp [hd])).1]; exact h
  | assertionPanic => rw [(loopFrame_of_not_ok rt size s msg (by simp [hd])).1]; exact h

theorem lookup_feed_some (rt : Runtime) (size : Int) (s : AggState)
    (frames : List MessageWithTimestamp) {id : String} {a : MessageInfo}
    (h : s.messageMap.lookup id = some a) :
    (feed rt size s frames).messageMap.lookup id = some a := by
  induction frames generalizing s with
  | nil => exact h
  | cons msg rest ih =>
    by_cases hs : s.status = .running
    · rw [feed_cons_running _ _ _ _ _ hs]
      exact ih _ (lookup_loopFrame_some rt size s msg h)
    · rw [feed_of_not_running _ _ _ _ hs]
      exact h

theorem lookup_loopFrame_none (rt : Runtime) (size : Int) (s : AggState)
    (msg : MessageWithTimestamp) {id : String}
    (h : s.messageMap.lookup id = none) (hne : ∀ c, decodeFrame rt msg ≠ .ok id c) :
    (loopFrame rt size s msg).messageMap.lookup id = none := by
  cases hd : decodeFrame rt msg with
  | ok id1 info =>
    have hid : id ≠ id1 := by
      intro e
      subst e
      exact hne info hd
    cases hl : s.messageMap.lookup id1 with
    | some b =>
      rw [loopFrame_ok_loaded rt size s msg hd hl]
      exact h
    | none =>
      rw [loopFrame_ok_new rt size s msg hd hl]
      show (s.messageMap ++ [(id1, info)]).lookup id = none
      have hb : (id == id1) = false := by simp [hid]
      rw [List.lookup_append, h]
      simp [List.lookup_cons, hb]
  | unexpectedFormat => rw [(loopFrame_of_not_ok rt size s msg (by simp [hd])).1]; exact h
  | badPayload => rw [(loopFrame_of_not_ok rt size s msg (by simp [hd])).1]; exact h
  | badData => rw [(loopFrame_of_not_ok rt size s msg (by simp [hd])).1]; exact h
  | assertionPanic => rw [(loopFrame_of_not_ok rt size s msg (by simp [hd])).1]; exact h

theorem lookup_feed_none (rt : Runtime) (size : Int) (s : AggState)
    (frames : List MessageWithTimestamp) {id : String}
    (h : s.messageMap.lookup id = none)
    (hne : ∀ g ∈ frames, ∀ c, decodeFrame rt g ≠ .ok id c) :
    (feed rt size s frames).messageMap.lookup id = none := by
  induction frames generalizing s with
  | nil => exact h
  | cons msg rest ih =>
    by_cases hs : s.status = .running
    · rw [feed_cons_running _ _ _ _ _ hs]
      exact ih _ (lookup_loopFrame_none rt size s msg h (hne msg (by simp)))
        (fun g hg => hne g (by simp [hg]))
    · rw [feed_of_not_running _ _ _ _ hs]
      exact h

/-- C1. Let `f1` be the first frame that decodes with message id `id` (no frame before it does),
and `f2` a later frame that decodes with the same id, both received by `saveToMap` started on the
empty map (the loop is still running when `f2` arrives).  Then the map entry for `id` is the
sample `a` built from `f1`, before `f2`, after `f2` and after any further frames, and the
iteration that processes `f2` changes neither the map nor the sample count. -/
theorem first_sample_is_kept (rt : Runtime) (size : Int)
    (pre mid : List MessageWithTimestamp) (f1 f2 : MessageWithTimestamp)
    (id : String) (a b : MessageInfo)
    (h1 : decodeFrame rt f1 = .ok id a) (h2 : decodeFrame rt f2 = .ok id b)
    (hfirst : ∀ g ∈ pre, (decodeFrame rt g).messageId ≠ some id)
    (hrun : (feed rt size AggState.init (pre ++ f1 :: mid)).status = .running) :
    (feed rt size AggState.init (pre ++ f1 :: mid)).messageMap.lookup id = some a ∧
      (loopFrame rt size (feed rt size AggState.init (pre ++ f1 :: mid)) f2).messageMap =
        (feed rt size AggState.init (pre ++ f1 :: mid)).messageMap ∧
      (loopFrame rt size (feed rt size AggState.init (pre ++ f1 :: mid)) f2).elementCount =
        (feed rt size AggState.init (pre ++ f1 :: mid)).elementCount ∧
      ∀ rest, (feed rt size AggState.init (pre ++ f1 :: mid ++ f2 :: rest)).messageMap.lookup id =
        some a := by
  have hpre : (feed rt size AggState.init pre).status = .running := by
    rw [feed_append] at hrun
    exact running_of_feed_running rt size _ _ hrun
  have hnone : (feed rt size AggState.init pre).messageMap.lookup id = none :=
    lookup_feed_none rt size AggState.init pre rfl
      (fun g hg c hc => hfirst g hg (by rw [hc]; rfl))
  have hf1 : (loopFrame rt size (feed rt size AggState.init pre) f1).messageMap.lookup id =
      some a := by
    rw [loopFrame_ok_new rt size _ f1 h1 hnone]
    show ((feed rt size AggState.init pre).messageMap ++ [(id, a)]).lookup id = some a
    rw [List.lookup_append, hnone]
    simp
  have hmid : (feed rt size AggState.init (pre ++ f1 :: mid)).messageMap.lookup id = some a := by
    rw [feed_append, feed_cons_running _ _ _ _ _ hpre]
    exact lookup_feed_some rt size _ mid hf1
  have hstep := loopFrame_ok_loaded rt size
    (feed rt size AggState.init (pre ++ f1 :: mid)) f2 h2 hmid
  refine ⟨hmid, by rw [hstep], by rw [hstep], ?_⟩
  intro rest
  have e : pre ++ f1 :: mid ++ f2 :: rest = (pre ++ f1 :: mid) ++ f2 :: rest := by simp
  rw [e, feed_append]
  exact lookup_feed_some rt size _ _ hmid

theorem first_sample_is_kept_witness :
    decodeFrame sampleRuntime (sampleFrame "a" (dataText "1000000000") 2 500000000) =
        .ok "a" ⟨⟨1, 0⟩, ⟨2, 500000000⟩⟩ ∧
      decodeFrame sampleRuntime (sampleFrame "a" (dataText "2000000000") 4 0) =
        .ok "a" ⟨⟨2, 0⟩, ⟨4, 0⟩⟩ ∧
      (feed sampleRuntime 4 AggState.init
        ([sampleFrame "b" (dataText "1000000000") 1 7] ++
          sampleFrame "a" (dataText "1000000000") 2 500000000 ::
            [sampleFrame "c" (dataText "1000000000") 3 0])).messageMap.lookup "a" =
        some ⟨⟨1, 0⟩, ⟨2, 500000000⟩⟩ :=
  ⟨by decide, by decide,
    (first_sample_is_kept sampleRuntime 4 [sampleFrame "b" (dataText "1000000000") 1 7]
      [sampleFrame "c" (dataText "1000000000") 3 0]
      (sampleFrame "a" (dataText "1000000000") 2 500000000)
      (sampleFrame "a" (dataText "2000000000") 4 0) "a" ⟨⟨1, 0⟩, ⟨2, 500000000⟩⟩ ⟨⟨2, 0⟩, ⟨4, 0⟩⟩
      (by decide) (by decide) (by decide) (by decide)).1⟩

/-! ## The target is reached at the N-th distinct id -/

theorem lookup_eq_none_iff_not_mem_mapKeys (m : SyncMap) (id : String) :
    m.lookup id = none ↔ id ∉ mapKeys m := by
  simp only [List.lookup_eq_none_iff, mapKeys, List.mem_toFinset, List.mem_map, not_exists,
    not_and]
  constructor
  · intro h p hp e
    have := h p hp
    simp [e] at this
  · intro h p hp
    have := h p hp
    simp only [bne_iff_ne, ne_eq]
    exact fun e => this e.symm

theorem mem_mapKeys_of_lookup {m : SyncMap} {id : String} {a : MessageInfo}
    (h : m.lookup id = some a) : id ∈ mapKeys m := by
  by_contra hn
  rw [(lookup_eq_none_iff_not_mem_mapKeys m id).2 hn] at h
  exact Option.noConfusion h

theorem mapKeys_append_single (m : SyncMap) (id : String) (info : MessageInfo) :
    mapKeys (m ++ [(id, info)]) = insert id (mapKeys m) := by
  ext x
  simp only [mapKeys, List.map_append, List.map_cons, List.map_nil, List.toFinset_append,
    List.toFinset_cons, List.toFinset_nil, Finset.mem_union, Finset.mem_insert,
    List.mem_toFinset, Finset.not_mem_empty, or_false]
  tauto

theorem decodedIds_nil (rt : Runtime) : decodedIds rt [] = [] := rfl

theorem decodedIds_cons_ok (rt : Runtime) (msg : MessageWithTimestamp)
    (rest : List MessageWithTimestamp) {id : String} {info : MessageInfo}
    (h : decodeFrame rt msg = .ok id info) :
    decodedIds rt (msg :: rest) = id :: decodedIds rt rest := by
  simp [decodedIds, List.filterMap_cons, h, Decoded.messageId]

theorem decodedIds_cons_none (rt : Runtime) (msg : MessageWithTimestamp)
    (rest : List MessageWithTimestamp) (h : (decodeFrame rt msg).messageId = none) :
    decodedIds rt (msg :: rest) = decodedIds rt rest := by
  simp [decodedIds, List.filterMap_cons, h]

theorem loopFrame_skipped (rt : Runtime) (size : Int) (s : AggState)
    (msg : MessageWithTimestamp) (h : (decodeFrame rt msg).messageId = none)
    (hp : decodeFrame rt msg ≠ .assertionPanic) :
    loopFrame rt size s msg = ⟨s.messageMap, s.elementCount, s.consumed + 1, .running⟩ := by
  cases hd : decodeFrame rt msg with
  | ok id info => simp [hd, Decoded.messageId] at h
  | unexpectedFormat => simp [loopFrame, hd]
  | badPayload => simp [loopFrame, hd]
  | badData => simp [loopFrame, hd]
  | assertionPanic => exact absurd hd hp

/-- The loop from a running state with `c` entries, `c < N`: when the frames to come bring the
number of distinct ids to `N` and none of those received before that panics, the loop stops at
the frame that brings the `N`-th id. -/
theorem feed_reaches_target (rt : Runtime) (N : Int) (hN : N ≤ maxInt64)
    (frames : List MessageWithTimestamp) :
    ∀ (m : SyncMap) (n : Nat),
      (mapKeys m).card = m.length →
      (m.length : Int) < N →
      N ≤ ((mapKeys m ∪ (decodedIds rt frames).toFinset).card : Int) →
      (∀ pre g rest, frames = pre ++ g :: rest →
        ((mapKeys m ∪ (decodedIds rt pre).toFinset).card : Int) < N →
        decodeFrame rt g ≠ .assertionPanic) →
      ∃ k, k < frames.length ∧
        ((mapKeys m ∪ (decodedIds rt (frames.take k)).toFinset).card : Int) = N - 1 ∧
        ((mapKeys m ∪ (decodedIds rt (frames.take (k + 1))).toFinset).card : Int) = N ∧
        (feed rt N ⟨m, (m.length : Int), n, .running⟩ frames).status = .targetReached ∧
        (feed rt N ⟨m, (m.length : Int), n, .running⟩ frames).consumed = n + (k + 1) ∧
        ((feed rt N ⟨m, (m.length : Int), n, .running⟩ frames).messageMap.length : Int) = N ∧
        (feed rt N ⟨m, (m.length : Int), n, .running⟩ frames).elementCount = N := by
  induction frames with
  | nil =>
    intro m n hk hlt hids _
    simp only [decodedIds_nil, List.toFinset_nil, Finset.union_empty] at hids
    omega
  | cons f fs ih =>
    intro m n hk hlt hids hnp
    have hnp0 : decodeFrame rt f ≠ .assertionPanic := by
      apply hnp [] f fs rfl
      simp only [decodedIds_nil, List.toFinset_nil, Finset.union_empty]
      omega
    rw [feed_cons_running _ _ _ _ _ rfl]
    cases hd : decodeFrame rt f with
    | ok id info =>
      have hcons := decodedIds_cons_ok rt f fs hd
      cases hl : m.lookup id with
      | some a =>
        have hmem : id ∈ mapKeys m := mem_mapKeys_of_lookup hl
        have hun : ∀ L : List String,
            mapKeys m ∪ (id :: L).toFinset = mapKeys m ∪ L.toFinset := by
          intro L
          rw [List.toFinset_cons, Finset.union_insert, Finset.insert_eq_of_mem]
          exact Finset.mem_union_left _ hmem
        have hstep : loopFrame rt N ⟨m, (m.length : Int), n, .running⟩ f =
            ⟨m, (m.length : Int), n + 1, .running⟩ := by
          rw [loopFrame_ok_loaded rt N _ f hd hl]
          have hlt1 : ¬ ((m.length : Int) ≥ N) := by omega
          simp only [if_neg hlt1]
        rw [hstep]
        obtain ⟨k, hk1, hk2, hk3, hk4, hk5, hk6, hk7⟩ := ih m (n + 1) hk hlt
          (by rw [hcons, hun] at hids; exact hids)
          (fun pre g rest e hc => hnp (f :: pre) g rest (by rw [e]; rfl)
            (by rw [decodedIds_cons_ok rt f pre hd, hun]; exact hc))
        refine ⟨k + 1, by simp only [List.length_cons]; omega, ?_, ?_, hk4, ?_, hk6, hk7⟩
        · rw [List.take_succ_cons, decodedIds_cons_ok rt f _ hd, hun]
          exact hk2
        · rw [List.take_succ_cons, decodedIds_cons_ok rt f _ hd, hun]
          exact hk3
        · rw [hk5]
          omega
      | none =>
        have hnmem : id ∉ mapKeys m := (lookup_eq_none_iff_not_mem_mapKeys m id).1 hl
        have hkeys := mapKeys_append_single m id info
        have hcard : (mapKeys (m ++ [(id, info)])).card = (m ++ [(id, info)]).length := by
          rw [hkeys, Finset.card_insert_of_not_mem hnmem, hk]
          simp
        have hun : ∀ L : List String,
            mapKeys m ∪ (id :: L).toFinset = mapKeys (m ++ [(id, info)]) ∪ L.toFinset := by
          intro L
          rw [hkeys, List.toFinset_cons, Finset.union_insert, Finset.insert_union]
        have hlen : ((m ++ [(id, info)]).length : Int) = (m.length : Int) + 1 := by simp
        have hwrap : wrapInt64 ((m.length : Int) + 1) = (m.length : Int) + 1 :=
          wrapInt64_of_range (by unfold minInt64; omega) (by omega)
        have hstep := loopFrame_ok_new rt N ⟨m, (m.length : Int), n, .running⟩ f hd hl
        simp only [hwrap] at hstep
        by_cases hge : (m.length : Int) + 1 ≥ N
        · simp only [if_pos hge] at hstep
          rw [hstep, feed_of_not_running _ _ _ _ (by simp)]
          refine ⟨0, by simp, ?_, ?_, rfl, rfl, ?_, ?_⟩
          · simp only [List.take_zero, decodedIds_nil, List.toFinset_nil, Finset.union_empty]
            omega
          · rw [List.take_succ_cons, List.take_zero, decodedIds_cons_ok rt f _ hd, hun,
              decodedIds_nil, List.toFinset_nil, Finset.union_empty, hcard]
            omega
          · show ((m ++ [(id, info)]).length : Int) = N
            omega
          · show (m.length : Int) + 1 = N
            omega
        · simp only [if_neg hge] at hstep
          rw [hstep, ← hlen]
          obtain ⟨k, hk1, hk2, hk3, hk4, hk5, hk6, hk7⟩ := ih (m ++ [(id, info)]) (n + 1) hcard
            (by omega)
            (by rw [hcons, hun] at hids; exact hids)
            (fun pre g rest e hc => hnp (f :: pre) g rest (by rw [e]; rfl)
              (by rw [decodedIds_cons_ok rt f pre hd, hun]; exact hc))
          refine ⟨k + 1, by simp only [List.length_cons]; omega, ?_, ?_, hk4, ?_, hk6, hk7⟩
          · rw [List.take_succ_cons, decodedIds_cons_ok rt f _ hd, hun]
            exact hk2
          · rw [List.take_succ_cons, decodedIds_cons_ok rt f _ hd, hun]
            exact hk3
          · rw [hk5]
            omega
    | unexpectedFormat =>
      have hid : (decodeFrame rt f).messageId = none := by rw [hd]; rfl
      rw [loopFrame_skipped rt N _ f hid hnp0]
      obtain ⟨k, hk1, hk2, hk3, hk4, hk5, hk6, hk7⟩ := ih m (n + 1) hk hlt
        (by rw [decodedIds_cons_none rt f fs hid] at hids; exact hids)
        (fun pre g rest e hc => hnp (f :: pre) g rest (by rw [e]; rfl)
          (by rw [decodedIds_cons_none rt f pre hid]; exact hc))
      refine ⟨k + 1, by simp only [List.length_cons]; omega, ?_, ?_, hk4, ?_, hk6, hk7⟩
      · rw [List.take_succ_cons, decodedIds_cons_none rt f _ hid]
        exact hk2
      · rw [List.take_succ_cons, decodedIds_cons_none rt f _ hid]
        exact hk3
      · rw [hk5]
        omega
    | badPayload =>
      have hid : (decodeFrame rt f).messageId = none := by rw [hd]; rfl
      rw [loopFrame_skipped rt N _ f hid hnp0]
      obtain ⟨k, hk1, hk2, hk3, hk4, hk5, hk6, hk7⟩ := ih m (n + 1) hk hlt
        (by rw [decodedIds_cons_none rt f fs hid] at hids; exact hids)
        (fun pre g rest e hc => hnp (f :: pre) g rest (by rw [e]; rfl)
          (by rw [decodedIds_cons_none rt f pre hid]; exact hc))
      refine ⟨k + 1, by simp only [List.length_cons]; omega, ?_, ?_, hk4, ?_, hk6, hk7⟩
      · rw [List.take_succ_cons, decodedIds_cons_none rt f _ hid]
        exact hk2
      · rw [List.take_succ_cons, decodedIds_cons_none rt f _ hid]
        exact hk3
      · rw [hk5]
        omega
    | badData =>
      have hid : (decodeFrame rt f).messageId = none := by rw [hd]; rfl
      rw [loopFrame_skipped rt N _ f hid hnp0]
      obtain ⟨k, hk1, hk2, hk3, hk4, hk5, hk6, hk7⟩ := ih m (n + 1) hk hlt
        (by rw [decodedIds_cons_none rt f fs hid] at hids; exact hids)
        (fun pre g rest e hc => hnp (f :: pre) g rest (by rw [e]; rfl)
          (by rw [decodedIds_cons_none rt f pre hid]; exact hc))
      refine ⟨k + 1, by simp only [List.length_cons]; omega, ?_, ?_, hk4, ?_, hk6, hk7⟩
      · rw [List.take_succ_cons, decodedIds_cons_none rt f _ hid]
        exact hk2
      · rw [List.take_succ_cons, decodedIds_cons_none rt f _ hid]
        exact hk3
      · rw [hk5]
        omega
    | assertionPanic => exact absurd hd hnp0

theorem saveToMap_eq_feed (rt : Runtime) (size : Int) (frames : List MessageWithTimestamp)
    (h : (feed rt size AggState.init frames).status ≠ .running) :
    saveToMap rt size frames = feed rt size AggState.init frames := by
  unfold saveToMap
  cases hs : (feed rt size AggState.init frames).status with
  | running => exact absurd hs h
  | targetReached => simp [hs]
  | channelClosed => simp [hs]
  | panicked => simp [hs]

theorem mapKeys_nil : mapKeys [] = ∅ := rfl

/-- C3 (amended). For every target `N` with `1 ≤ N` (an `int`) and every sequence of frames
with at least `N` distinct ids among its decoded frames, in which no frame received while fewer
than `N` distinct ids have been seen lacks a numeric `publishedAt`: `saveToMap` started on the
empty map signals completion after receiving exactly `k + 1` frames, where the frame of index
`k` is the one that introduces the `N`-th distinct id, and leaves exactly `N` entries and a
count of `N`, however many duplicate or otherwise malformed frames are interleaved. -/
theorem target_reached_at_nth_distinct_id (rt : Runtime) (N : Int)
    (frames : List MessageWithTimestamp) (h1 : 1 ≤ N) (hN : N ≤ maxInt64)
    (hids : N ≤ (distinctIds rt frames : Int))
    (hnp : ∀ pre g rest, frames = pre ++ g :: rest → (distinctIds rt pre : Int) < N →
      decodeFrame rt g ≠ .assertionPanic) :
    ∃ k, k < frames.length ∧
      (distinctIds rt (frames.take k) : Int) = N - 1 ∧
      (distinctIds rt (frames.take (k + 1)) : Int) = N ∧
      (saveToMap rt N frames).status = .targetReached ∧
      (saveToMap rt N frames).consumed = k + 1 ∧
      ((saveToMap rt N frames).messageMap.length : Int) = N ∧
      (saveToMap rt N frames).elementCount = N ∧
      aggregation rt N frames = saveToMap rt N frames := by
  have hgen := feed_reaches_target rt N hN frames [] 0 rfl
    (by simp only [List.length_nil, Nat.cast_zero]; omega)
    (by rw [mapKeys_nil, Finset.empty_union]; exact hids)
    (fun pre g rest e hc => hnp pre g rest e
      (by rw [mapKeys_nil, Finset.empty_union] at hc; exact hc))
  obtain ⟨k, hk1, hk2, hk3, hk4, hk5, hk6, hk7⟩ := hgen
  rw [mapKeys_nil, Finset.empty_union] at hk2 hk3
  have hinit : (⟨[], (([] : SyncMap).length : Int), 0, .running⟩ : AggState) = AggState.init :=
    rfl
  rw [hinit] at hk4 hk5 hk6 hk7
  have heq := saveToMap_eq_feed rt N frames (by rw [hk4]; simp)
  refine ⟨k, hk1, hk2, hk3, ?_, ?_, ?_, ?_, ?_⟩
  · rw [heq]; exact hk4
  · rw [heq, hk5]; omega
  · rw [heq]; exact hk6
  · rw [heq]; exact hk7
  · rw [heq]; rfl

theorem target_reached_at_nth_distinct_id_witness :
    (4 : Int) ≤ (distinctIds sampleRuntime scenarioB : Int) ∧
      (saveToMap sampleRuntime 4 scenarioB).consumed = 5 ∧
      (saveToMap sampleRuntime 4 scenarioB).messageMap.length = 4 ∧
      ∃ k, k < scenarioB.length ∧
        (distinctIds sampleRuntime (scenarioB.take k) : Int) = 4 - 1 ∧
        (distinctIds sampleRuntime (scenarioB.take (k + 1)) : Int) = 4 ∧
        (saveToMap sampleRuntime 4 scenarioB).status = .targetReached ∧
        (saveToMap sampleRuntime 4 scenarioB).consumed = k + 1 ∧
        ((saveToMap sampleRuntime 4 scenarioB).messageMap.length : Int) = 4 ∧
        (saveToMap sampleRuntime 4 scenarioB).elementCount = 4 ∧
        aggregation sampleRuntime 4 scenarioB = saveToMap sampleRuntime 4 scenarioB :=
  ⟨by decide, by decide, by decide,
    target_reached_at_nth_distinct_id sampleRuntime 4 scenarioB (by decide) (by decide)
      (by decide)
      (fun pre g rest e _ =>
        (by decide : ∀ g ∈ scenarioB, decodeFrame sampleRuntime g ≠ .assertionPanic) g
          (by rw [e]; simp))⟩

/-- C3 as stated fails: with target 0 a stream with one decoded frame (so with at least 0
distinct ids) makes `saveToMap` stop with one entry in the map, not 0. -/
theorem zero_target_leaves_one_entry :
    (0 : Int) ≤ (distinctIds sampleRuntime
        [sampleFrame "a" (dataText "1000000000") 2 500000000] : Int) ∧
      (saveToMap sampleRuntime 0
        [sampleFrame "a" (dataText "1000000000") 2 500000000]).status = .targetReached ∧
      (saveToMap sampleRuntime 0
        [sampleFrame "a" (dataText "1000000000") 2 500000000]).messageMap.length = 1 ∧
      ((saveToMap sampleRuntime 0
        [sampleFrame "a" (dataText "1000000000") 2 500000000]).messageMap.length : Int) ≠ 0 := by
  decide

/-! ## Start time and latency -/

theorem Time.instant_Unix (sec nsec : Int) :
    (Time.Unix sec nsec).instant = sec * 1000000000 + nsec := by
  unfold Time.Unix
  by_cases h : nsec < 0 ∨ nsec ≥ 1000000000
  · simp only [if_pos h]
    by_cases h2 : nsec - Int.tdiv nsec 1000000000 * 1000000000 < 0
    · simp only [if_pos h2, Time.instant]
      ring
    · simp only [if_neg h2, Time.instant]
      ring
  · simp only [if_neg h, Time.instant]

theorem Time.instant_Unix_split (t : Int) :
    (Time.Unix (Int.tdiv t Second) (Int.tmod t Second)).instant = t := by
  rw [Time.instant_Unix]
  unfold Second
  exact Int.tdiv_add_tmod' t 1000000000

theorem int64OfFloat64_intCast (rt : Runtime) (n : Int) (hmin : minInt64 ≤ n)
    (hmax : n ≤ maxInt64) : rt.int64OfFloat64 (n : Rat) = n := by
  unfold Runtime.int64OfFloat64
  simp only [Rat.num_intCast, Rat.den_intCast, Nat.cast_one, Int.tdiv_one]
  rw [if_pos ⟨hmin, hmax⟩]

theorem Time.Sub_of_range (t u : Time) (hmin : minInt64 ≤ t.instant - u.instant)
    (hmax : t.instant - u.instant ≤ maxInt64) : t.Sub u = t.instant - u.instant := by
  unfold Time.Sub
  simp only
  rw [if_neg (by omega), if_neg (by omega)]

theorem Time.Sub_nonneg (t u : Time) (h : u.instant ≤ t.instant) : 0 ≤ t.Sub u := by
  unfold Time.Sub
  simp only
  have hmin : minInt64 < 0 := by decide
  have hmax : 0 < maxInt64 := by decide
  split_ifs <;> omega

/-- C7 (amended). For every well-formed frame whose `publishedAt` is an integer number `n` of
epoch nanoseconds in the signed 64-bit range that a float64 represents exactly, received at the
instant `r`: the `startTime` built by `time.Unix(n / 10^9, n % 10^9)` denotes exactly the instant
`n` (also for negative `n`); when `r - n` fits a `Duration`, the latency the report writer
computes is the `Duration` of exactly `r - n` nanoseconds, which is what its row renders in
seconds; and the latency is never negative when `n ≤ r`. -/
theorem startTime_and_latency (rt : Runtime) (msg : MessageWithTimestamp)
    (topic jsonPayload : String) (payloadData : Message) (data : List (String × JsonValue))
    (n : Int)
    (hsplit : SplitN2 msg.Message = [topic, jsonPayload])
    (hmsg : rt.unmarshalMessage jsonPayload = some payloadData)
    (hdata : rt.unmarshalData payloadData.Payload.Data = some data)
    (hpub : data.lookup "publishedAt" = some (.number (float64OfInt n)))
    (hexact : float64OfInt n = n) (hmin : minInt64 ≤ n) (hmax : n ≤ maxInt64) :
    ∃ startTime : Time,
      decodeFrame rt msg = .ok payloadData.ID ⟨startTime, msg.ExactReceiveTime⟩ ∧
      startTime.instant = n ∧
      (minInt64 ≤ msg.ExactReceiveTime.instant - n →
        msg.ExactReceiveTime.instant - n ≤ maxInt64 →
          msg.ExactReceiveTime.Sub startTime = msg.ExactReceiveTime.instant - n ∧
          ∀ i : Int,
            (writeRows rt i [(payloadData.ID, ⟨startTime, msg.ExactReceiveTime⟩)]).1 =
              [[Itoa (wrapInt64 (i + 1)),
                rt.formatSeconds (msg.ExactReceiveTime.instant - n)]]) ∧
      (n ≤ msg.ExactReceiveTime.instant → 0 ≤ msg.ExactReceiveTime.Sub startTime) := by
  refine ⟨Time.Unix (Int.tdiv n Second) (Int.tmod n Second), ?_, Time.instant_Unix_split n,
    ?_, ?_⟩
  · simp only [decodeFrame, hsplit, hmsg, hdata, hpub, hexact,
      int64OfFloat64_intCast rt n hmin hmax]
  · intro h1 h2
    have hsub : msg.ExactReceiveTime.Sub (Time.Unix (Int.tdiv n Second) (Int.tmod n Second)) =
        msg.ExactReceiveTime.instant - n := by
      rw [Time.Sub_of_range _ _ (by rw [Time.instant_Unix_split]; exact h1)
        (by rw [Time.instant_Unix_split]; exact h2), Time.instant_Unix_split]
    refine ⟨hsub, fun i => ?_⟩
    simp only [writeRows, hsub]
  · intro h
    exact Time.Sub_nonneg _ _ (by rw [Time.instant_Unix_split]; exact h)

theorem startTime_and_latency_witness :
    float64OfInt 1700000000000000000 = 1700000000000000000 ∧
      ∃ startTime : Time,
        decodeFrame sampleRuntime
            (sampleFrame "a" (dataText "1700000000000000000") 1700000001 500000000) =
          .ok "a" ⟨startTime, ⟨1700000001, 500000000⟩⟩ ∧
        startTime.instant = 1700000000000000000 ∧
        (minInt64 ≤ (⟨1700000001, 500000000⟩ : Time).instant - 1700000000000000000 →
          (⟨1700000001, 500000000⟩ : Time).instant - 1700000000000000000 ≤ maxInt64 →
            (⟨1700000001, 500000000⟩ : Time).Sub startTime =
                (⟨1700000001, 500000000⟩ : Time).instant - 1700000000000000000 ∧
            ∀ i : Int,
              (writeRows sampleRuntime i [("a", ⟨startTime, ⟨1700000001, 500000000⟩⟩)]).1 =
                [[Itoa (wrapInt64 (i + 1)),
                  sampleRuntime.formatSeconds
                    ((⟨1700000001, 500000000⟩ : Time).instant - 1700000000000000000)]]) ∧
        (1700000000000000000 ≤ (⟨1700000001, 500000000⟩ : Time).instant →
          0 ≤ (⟨1700000001, 500000000⟩ : Time).Sub startTime) :=
  ⟨by decide,
    startTime_and_latency sampleRuntime
      (sampleFrame "a" (dataText "1700000000000000000") 1700000001 500000000)
      "LB_STATUS" (payloadText "a" (dataText "1700000000000000000"))
      ⟨"a", 0, 0, [], ⟨dataText "1700000000000000000", ""⟩⟩
      [("publishedAt", .number (float64OfInt 1700000000000000000))]
      1700000000000000000 (by decide) (by decide) rfl rfl (by decide) (by decide) (by decide)⟩

/-- C7 as stated fails.  The publish time passes through a float64: the literal
`1700000000000000001` is decoded to the float64 `1.7e18`, so `startTime` denotes the instant
`1700000000000000000` and the latency is 1 ns more than `r - n`.  And `Time.Sub` saturates: for
`n = -2^63` the latency is the largest `Duration`, not `r - n`. -/
theorem publishedAt_not_exact :
    decodeFrame sampleRuntime
        (sampleFrame "a" (dataText "1700000000000000001") 1700000001 500000001) =
      .ok "a" ⟨⟨1700000000, 0⟩, ⟨1700000001, 500000001⟩⟩ ∧
      (⟨1700000000, 0⟩ : Time).instant ≠ 1700000000000000001 ∧
      (⟨1700000001, 500000001⟩ : Time).Sub ⟨1700000000, 0⟩ ≠
        (⟨1700000001, 500000001⟩ : Time).instant - 1700000000000000001 ∧
      decodeFrame sampleRuntime
        (sampleFrame "b" (dataText "-9223372036854775808") 1700000001 500000001) =
      .ok "b" ⟨⟨-9223372037, 145224192⟩, ⟨1700000001, 500000001⟩⟩ ∧
      (⟨-9223372037, 145224192⟩ : Time).instant = -9223372036854775808 ∧
      (⟨1700000001, 500000001⟩ : Time).Sub ⟨-9223372037, 145224192⟩ = maxInt64 ∧
      (⟨1700000001, 500000001⟩ : Time).Sub ⟨-9223372037, 145224192⟩ ≠
        (⟨1700000001, 500000001⟩ : Time).instant - (-9223372036854775808) := by
  decide

theorem excessBits_of_lt (fuel m : Nat) (h : m < 9007199254740992) : excessBits fuel m = 0 := by
  cases fuel with
  | zero => rfl
  | succ k => simp [excessBits, h]

/-- Every integer of magnitude below `2 ^ 53` is a float64. -/
theorem float64OfInt_of_small (n : Int) (h : n.natAbs < 9007199254740992) :
    float64OfInt n = n := by
  have hr : roundNat53 n.natAbs = n.natAbs := by
    unfold roundNat53
    simp [excessBits_of_lt _ _ h, Nat.mod_one]
  unfold float64OfInt
  rw [hr]
  split_ifs <;> omega

/-! ## Rows of the report -/

theorem writeRows_spec (rt : Runtime) (es : List (String × MessageInfo)) :
    ∀ i : Int, minInt64 ≤ i → i + es.length ≤ maxInt64 →
      (writeRows rt i es).2 = i + es.length ∧
      (writeRows rt i es).1.length = es.length ∧
      ∀ j : Nat, (writeRows rt i es).1[j]? =
        es[j]?.map fun e =>
          [Itoa (i + (j + 1)), rt.formatSeconds (e.2.ReceiveTime.Sub e.2.StartTime)] := by
  induction es with
  | nil =>
    intro i _ _
    simp [writeRows]
  | cons e rest ih =>
    intro i hmin hmax
    have hlen : ((e :: rest).length : Int) = (rest.length : Int) + 1 := by simp
    have hw : wrapInt64 (i + 1) = i + 1 := wrapInt64_of_range (by omega) (by omega)
    obtain ⟨h1, h2, h3⟩ := ih (i + 1) (by omega) (by omega)
    obtain ⟨key, messageInfo⟩ := e
    simp only [writeRows, hw]
    refine ⟨by rw [h1]; omega, by simp [h2], ?_⟩
    intro j
    cases j with
    | zero => simp
    | succ k =>
      rw [List.getElem?_cons_succ, List.getElem?_cons_succ, h3 k]
      have e1 : i + 1 + ((k : Int) + 1) = i + (((k + 1 : Nat) : Int) + 1) := by
        push_cast
        ring
      rw [e1]

/-- C8 (amended). For every sample map with `k` entries, a call of `saveFile` that finds the
package-level counter `i` at `i₀` writes exactly `k + 1` rows: first the header row, then one row
per sample, in the order `Range` visits them; the `j`-th data row carries the index `i₀ + j` and
the latency of the `j`-th sample visited, and the counter is left at `i₀ + k`.  In `main`, the
only caller, `i₀ = 0`, so the `j`-th data row carries the index `j`. -/
theorem saveFile_rows (rt : Runtime) (i : Int) (dir : Option (List String)) (m : SyncMap)
    (hperm : (rt.rangeOrder m).Perm m) (hmin : minInt64 ≤ i)
    (hmax : i + m.length ≤ maxInt64) :
    (saveFile rt i dir m).rows.length = m.length + 1 ∧
      (saveFile rt i dir m).rows[0]? = some ["Índice", "Tempo de consulta (s)"] ∧
      (∀ j : Nat, (saveFile rt i dir m).rows[j + 1]? =
        (rt.rangeOrder m)[j]?.map fun e =>
          [Itoa (i + (j + 1)), rt.formatSeconds (e.2.ReceiveTime.Sub e.2.StartTime)]) ∧
      (saveFile rt i dir m).counter = i + m.length ∧
      ∀ (size : Int) (frames : List MessageWithTimestamp) (rep : Report),
        main rt size dir frames = some rep →
          rep = saveFile rt 0 dir (aggregation rt size frames).messageMap := by
  have hl : (rt.rangeOrder m).length = m.length := hperm.length_eq
  obtain ⟨h1, h2, h3⟩ := writeRows_spec rt (rt.rangeOrder m) i hmin (by rw [hl]; exact hmax)
  refine ⟨?_, ?_, ?_, ?_, ?_⟩
  · simp [saveFile, h2, hl]
  · simp [saveFile, header]
  · intro j
    simp only [saveFile, List.getElem?_cons_succ]
    exact h3 j
  · simp only [saveFile, h1, hl]
  · intro size frames rep h
    unfold main at h
    by_cases hd : (aggregation rt size frames).doneClosed = true
    · simp only [hd, if_true, Option.some.injEq] at h
      exact h.symm
    · simp [hd] at h

theorem saveFile_rows_witness :
    (sampleRuntime.rangeOrder sampleMap).Perm sampleMap ∧
      (saveFile sampleRuntime 0 none sampleMap).rows =
        [["Índice", "Tempo de consulta (s)"], ["1", "1500000000ns"], ["2", "2500000000ns"]] ∧
      (saveFile sampleRuntime 0 none sampleMap).rows.length = sampleMap.length + 1 :=
  ⟨List.Perm.refl _, by decide,
    (saveFile_rows sampleRuntime 0 none sampleMap (List.Perm.refl _) (by decide)
      (by decide)).1⟩

/-- C8 as stated fails: the row index is the package-level counter `i`, which `saveFile` never
resets, so a second invocation in the same process numbers its first data row 3 after a first
report of two rows. -/
theorem second_report_continues_numbering :
    (saveFile sampleRuntime 0 none sampleMap).counter = 2 ∧
      (saveFile sampleRuntime (saveFile sampleRuntime 0 none sampleMap).counter
        (some ["tangle-hornet-reading-time_0.csv"]) sampleMap).rows =
        [["Índice", "Tempo de consulta (s)"], ["3", "1500000000ns"], ["4", "2500000000ns"]] ∧
      (saveFile sampleRuntime (saveFile sampleRuntime 0 none sampleMap).counter
        (some ["tangle-hornet-reading-time_0.csv"]) sampleMap).rows[1]? ≠
        some [Itoa 1, "1500000000ns"] := by
  decide

/-! ## Name of the report -/

theorem digitChar_value (d : Nat) (h : d < 10) : (Nat.digitChar d).toNat - 48 = d := by
  interval_cases d <;> rfl

theorem foldl_toDigitsCore (fuel : Nat) :
    ∀ (n : Nat) (ds : List Char), n < fuel →
      (Nat.toDigitsCore 10 fuel n ds).foldl (fun acc c => acc * 10 + (c.toNat - 48)) 0 =
        ds.foldl (fun acc c => acc * 10 + (c.toNat - 48)) n := by
  induction fuel with
  | zero => intro n ds h; omega
  | succ k ih =>
    intro n ds h
    have hd := digitChar_value (n % 10) (Nat.mod_lt _ (by decide))
    simp only [Nat.toDigitsCore]
    by_cases h0 : n / 10 = 0
    · simp only [if_pos h0, List.foldl_cons, hd]
      congr 1
      omega
    · simp only [if_neg h0]
      rw [ih (n / 10) _ (by omega)]
      simp only [List.foldl_cons, hd]
      congr 1
      omega

theorem digitsValue_toDigits (n : Nat) : digitsValue (Nat.toDigits 10 n) = n := by
  unfold digitsValue Nat.toDigits
  rw [foldl_toDigitsCore (n + 1) n [] (by omega)]
  rfl

theorem Itoa_natCast (n : Nat) : Itoa (n : Int) = String.mk (Nat.toDigits 10 n) := rfl

theorem fileName_injective (a b : Nat) (h : fileName a = fileName b) : a = b := by
  unfold fileName at h
  rw [Itoa_natCast, Itoa_natCast] at h
  have hdata := congrArg String.data h
  simp only [String.data_append] at hdata
  have h1 := List.append_cancel_right hdata
  have h2 := List.append_cancel_left h1
  have h3 := congrArg digitsValue h2
  rw [digitsValue_toDigits, digitsValue_toDigits] at h3
  exact h3

/-- C10 (amended). For every content of the reports directory, whatever its entries are, the
path `saveFile` chooses is `files/tangle-hornet-reading-time_<n>.csv` with `n` the number of
existing entries (0 when the directory had to be created), as does `main` of `src/cliente.go`;
and when every existing entry is one of the reports `tangle-hornet-reading-time_<k>.csv` with
`k < n`, that file name is not the name of any existing entry. -/
theorem report_path_is_fresh (rt : Runtime) (i : Int) (files : List String) (m : SyncMap) :
    (saveFile rt i (some files) m).path =
        "files/tangle-hornet-reading-time_" ++ Itoa files.length ++ ".csv" ∧
      (saveFile rt i none m).path = "files/tangle-hornet-reading-time_0.csv" ∧
      clienteFilePath (some files) = some (saveFile rt i (some files) m).path ∧
      (saveFile rt i (some files) m).path = "files/" ++ fileName files.length ∧
      ((∀ e ∈ files, ∃ k, k < files.length ∧ e = fileName k) →
        fileName files.length ∉ files) := by
  have h0 : filePath 0 = "files/tangle-hornet-reading-time_0.csv" := by decide
  refine ⟨?_, h0, rfl, rfl, ?_⟩
  · show "files" ++ "/" ++ ("tangle-hornet-reading-time_" ++ Itoa files.length ++ ".csv") = _
    apply String.ext
    simp only [String.data_append, List.append_assoc]
    rfl
  · intro hfiles hmem
    obtain ⟨k, hk, e⟩ := hfiles _ hmem
    have := fileName_injective _ _ e
    omega

theorem report_path_is_fresh_witness :
    (∀ e ∈ [fileName 0, fileName 1], ∃ k, k < [fileName 0, fileName 1].length ∧ e = fileName k) ∧
      (saveFile sampleRuntime 0 (some [fileName 0, fileName 1]) sampleMap).path =
        "files/tangle-hornet-reading-time_2.csv" ∧
      fileName [fileName 0, fileName 1].length ∉ [fileName 0, fileName 1] ∧
      (saveFile sampleRuntime 0 (some ["notes.txt", "sub", ".hidden"]) sampleMap).path =
        "files/tangle-hornet-reading-time_" ++ Itoa (3 : Nat) ++ ".csv" :=
  ⟨by
      intro e he
      simp only [List.mem_cons, List.mem_singleton, List.not_mem_nil, or_false] at he
      rcases he with rfl | rfl
      · exact ⟨0, by decide, rfl⟩
      · exact ⟨1, by decide, rfl⟩,
    by decide,
    (report_path_is_fresh sampleRuntime 0 [fileName 0, fileName 1] sampleMap).2.2.2.2 (by
      intro e he
      simp only [List.mem_cons, List.mem_singleton, List.not_mem_nil, or_false] at he
      rcases he with rfl | rfl
      · exact ⟨0, by decide, rfl⟩
      · exact ⟨1, by decide, rfl⟩),
    (report_path_is_fresh sampleRuntime 0 ["notes.txt", "sub", ".hidden"] sampleMap).1⟩

/-- C10 as stated fails: in a directory whose single entry is `tangle-hornet-reading-time_1.csv`
(the report numbered 0 was removed) the name chosen is that of the existing entry, which
`os.Create` truncates. -/
theorem report_name_collides :
    (saveFile sampleRuntime 0 (some ["tangle-hornet-reading-time_1.csv"]) sampleMap).path =
        "files/tangle-hornet-reading-time_1.csv" ∧
      fileName ["tangle-hornet-reading-time_1.csv"].length ∈
        ["tangle-hornet-reading-time_1.csv"] := by
  decide

end ZmqClient
